import Mathlib

/-!
Shallow embedding of `dtw_openmp.c` (DTAIDistance): the block-region planner
`dtw_distances_prepare` and the four parallel distance-matrix entry points
`dtw_distances_ptrs_parallel`, `dtw_distances_ndim_ptrs_parallel`,
`dtw_distances_matrix_parallel`, `dtw_distances_ndim_matrix_parallel`.

Modelling conventions:
* C `size_t` values are `Nat`; the one place where `size_t` wraparound is
  reachable at ordinary inputs is the planner accumulation
  `rs += block->ce - cb` (line 73), which underflows whenever `cb > ce`;
  it is embedded with explicit arithmetic modulo `2 ^ 64` (`addSz`, `subSz`).
* A series pointer (`seq_t *`) is a function from element offsets to an
  abstract element type `E`; the external metrics `dtw_distance` and
  `dtw_distance_ndim` (defined in `dtw.c`, outside this file's repository
  snapshot) are function parameters.
* The external length collaborator `dtw_distances_length` (also in `dtw.c`)
  is a function parameter of the planner; a spec-modelled instance is
  provided below.
* `malloc` outcomes are the two Booleans `a1`, `a2` (allocation of `*cbs`
  resp. `*rls` succeeds).  The source's failure checks at lines 30, 51 and 57
  test the addresses of the out parameters (`length == 0`, `!cbs`, `!rls`),
  not the values stored through them; every caller in this file passes the
  address of a stack local, so those branches are dead and are embedded as
  such (see the comments on `dtw_distances_prepare`).  An execution that
  would write through a null planner sequence is undefined behavior in C and
  is embedded as `none`.
* The output buffer is represented by the list of (index, value) stores the
  loop performs, in program order; the caller's block, which the source
  updates in place (lines 35-40), is returned as part of the result.
-/

/-- Modulus of C `size_t` arithmetic (64-bit platform): `2 ^ 64`. -/
def szMod : Nat := 18446744073709551616

/-- C `size_t` addition (wraps modulo `2 ^ 64`). -/
def addSz (a b : Nat) : Nat := (a + b) % szMod

/-- C `size_t` subtraction (wraps modulo `2 ^ 64`). -/
def subSz (a b : Nat) : Nat := (a % szMod + (szMod - b % szMod)) % szMod

/-- The `DTWBlock` struct (`dtw.h`): a half-open rectangular region
`[rb, re) x [cb, ce)` of the conceptual series-pair grid.  All four fields
are C `size_t` values. -/
structure DTWBlock where
  rb : Nat
  re : Nat
  cb : Nat
  ce : Nat
deriving DecidableEq, Repr

/-- The `DTWSettings` bundle.  It is passed through to the collaborators
unmodified; the only field this file reads is `use_ssize_t` (line 29). -/
structure DTWSettings where
  use_ssize_t : Bool
deriving DecidableEq, Repr

/-- Lines 35-40 of `dtw_openmp.c` ("Correct block"): zero-sentinel
defaulting, performed in place on the caller's block
(`if (block->re == 0) block->re = nb_series;` and likewise for `ce`). -/
def normBlock (blk : DTWBlock) (N : Nat) : DTWBlock :=
  { blk with
    re := if blk.re = 0 then N else blk.re
    ce := if blk.ce = 0 then N else blk.ce }

/-- Lines 62-75 of `dtw_openmp.c`: the planning loop.  Starting from
`ir = 0, rs = 0`, for each row `r` from `block->rb` to `block->re - 1` it
stores `cbs[ir] = cb_r` where `cb_r = r + 1` if `r + 1 > block->cb` and
`block->cb` otherwise (lines 66-70), stores `rls[ir] = rs` (line 72), and
advances `rs += block->ce - cb_r` in `size_t` arithmetic (line 73; this
underflows when `cb_r > block->ce`).  The first argument of the recursion is
the remaining row count `block->re - r`; the returned list holds the
`(cbs[ir], rls[ir])` pairs in order. -/
def planLoop (cb ce : Nat) : Nat → Nat → Nat → List (Nat × Nat)
  | 0, _, _ => []
  | n + 1, r, rs =>
    let cbr := if r + 1 > cb then r + 1 else cb
    (cbr, rs) :: planLoop cb ce n (r + 1) (addSz rs (subSz ce cbr))

/-- Result of `dtw_distances_prepare`: the C return code `ret`, the value
stored through the `length` out parameter, the (possibly updated) caller
block, the number of `size_t` slots `malloc` was asked for for each planner
sequence (`block->ce - block->cb`, lines 50 and 56), and the contents of the
two sequences (`none` models a null pointer from a failed `malloc`). -/
structure PrepResult where
  ret : Nat
  length : Nat
  block : DTWBlock
  cbsCap : Nat
  rlsCap : Nat
  cbs : Option (List Nat)
  rls : Option (List Nat)
deriving DecidableEq, Repr

/-- `dtw_distances_prepare` (lines 26-77 of `dtw_openmp.c`).

Control flow of the source, in order:
* line 29: `*length = dtw_distances_length(block, nb_series,
  settings->use_ssize_t);` — the collaborator is queried on the block as
  supplied by the caller;
* line 30: `if (length == 0) return 1;` — this compares the address
  `length`, not `*length`; all four callers pass `&length` of a stack local,
  so the branch is dead and is not represented;
* lines 35-40: zero-sentinel defaulting, in place (`normBlock`);
* lines 41-48: emptiness checks on the corrected block; each failing check
  stores `*length = 0` and returns `1`;
* lines 50-61: two `malloc(sizeof(size_t) * (block->ce - block->cb))` calls.
  The checks `if (!cbs)` / `if (!rls)` again test the addresses of the out
  parameters (never null here), not the malloc results, so a failed
  allocation is not caught and execution reaches the loop, which then writes
  through a null pointer: undefined behavior, embedded as `none`;
* lines 62-75: the planning loop (`planLoop`), then `return 0`. -/
def dtw_distances_prepare (lengthF : DTWBlock → Nat → Bool → Nat)
    (blk : DTWBlock) (N : Nat) (a1 a2 : Bool) (s : DTWSettings) :
    Option PrepResult :=
  let len0 := lengthF blk N s.use_ssize_t
  let b := normBlock blk N
  if b.re ≤ b.rb then
    some { ret := 1, length := 0, block := b, cbsCap := 0, rlsCap := 0,
           cbs := none, rls := none }
  else if b.ce ≤ b.cb then
    some { ret := 1, length := 0, block := b, cbsCap := 0, rlsCap := 0,
           cbs := none, rls := none }
  else
    let cap := b.ce - b.cb
    if a1 && a2 then
      let plan := planLoop b.cb b.ce (b.re - b.rb) b.rb 0
      some { ret := 0, length := len0, block := b, cbsCap := cap,
             rlsCap := cap, cbs := some (plan.map Prod.fst),
             rls := some (plan.map Prod.snd) }
    else none

/-- Inner column loop shared by the four entry points (lines 107-114 of
`dtw_openmp.c` for the first one): `for (c = cbs[r_i]; c < block->ce; c++)`
stores `output[rls[r_i] + c_i] = value` and increments `c_i`.  `val c` is the
metric value computed for column `c`; the first `Nat` argument is the
remaining iteration count `ce - c`; the writes are returned as
(index, value) pairs in order. -/
def innerLoop {V : Type} (val : Nat → V) (rsr : Nat) : Nat → Nat → Nat → List (Nat × V)
  | 0, _, _ => []
  | n + 1, c, ci => (addSz rsr ci, val c) :: innerLoop val rsr n (c + 1) (ci + 1)

/-- Outer row loop shared by the four entry points (lines 104-115 for the
first one): `for (r_i = 0; r_i < block->re - block->rb; r_i++)` with
`r = block->rb + r_i`, reading `cbs[r_i]` and `rls[r_i]`.  The two planner
sequences have exactly `block->re - block->rb` entries apiece as built by
`planLoop`, so indexing by `r_i` is walking them in lockstep.  `v r c` is
the metric value for the pair `(r, c)`.  The OpenMP pragma distributes rows
over threads; since each row writes a fixed set of slots, the program-order
concatenation below is the canonical serialization. -/
def distLoopAux {V : Type} (v : Nat → Nat → V) (ce : Nat) :
    Nat → List Nat → List Nat → List (Nat × V)
  | r, cbr :: cbs, rsr :: rls =>
    innerLoop (v r) rsr (ce - cbr) cbr 0 ++ distLoopAux v ce (r + 1) cbs rls
  | _, _, _ => []

/-- Result of one entry-point call: the returned `size_t` (the length, or
`0` after a failed preparation), the caller's block after the call, and the
(index, value) stores into the caller-supplied output buffer. -/
structure DistResult (V : Type) where
  ret : Nat
  block : DTWBlock
  writes : List (Nat × V)
deriving DecidableEq, Repr

/-- The loop skeleton shared verbatim by the four entry points (e.g. lines
92-119 of `dtw_openmp.c`): call `dtw_distances_prepare`; on a nonzero return
code return `0`; otherwise run the doubly nested loop and return `length`.
The variants differ only in the expression `v r c` computed for a pair.
`none` propagates the undefined executions of `dtw_distances_prepare`. -/
def distSkeleton {V : Type} (v : Nat → Nat → V)
    (lengthF : DTWBlock → Nat → Bool → Nat) (blk : DTWBlock) (N : Nat)
    (s : DTWSettings) (a1 a2 : Bool) : Option (DistResult V) :=
  match dtw_distances_prepare lengthF blk N a1 a2 s with
  | none => none
  | some p =>
    if p.ret ≠ 0 then some { ret := 0, block := p.block, writes := [] }
    else
      match p.cbs, p.rls with
      | some cbs, some rls =>
        some { ret := p.length, block := p.block,
               writes := distLoopAux v p.block.ce p.block.rb cbs rls }
      | _, _ => none

/-- Type of the external single-channel metric `dtw_distance(seq_t *a,
size_t la, seq_t *b, size_t lb, DTWSettings *settings)` from `dtw.c`. -/
abbrev Metric (E V : Type) := (Nat → E) → Nat → (Nat → E) → Nat → DTWSettings → V

/-- Type of the external multi-channel metric `dtw_distance_ndim(seq_t *a,
size_t la, seq_t *b, size_t lb, int ndim, DTWSettings *settings)`. -/
abbrev MetricN (E V : Type) := (Nat → E) → Nat → (Nat → E) → Nat → Nat → DTWSettings → V

/-- `dtw_distances_ptrs_parallel` (lines 85-120): ragged single-channel
variant.  `ptrs i` is the series `ptrs[i]` (a function from offsets to
elements), `lengths i` is `lengths[i]`, and the value computed for a pair
is `dtw_distance(ptrs[r], lengths[r], ptrs[c], lengths[c], settings)`
(lines 109-110). -/
def dtw_distances_ptrs_parallel {E V : Type} (d : Metric E V)
    (lengthF : DTWBlock → Nat → Bool → Nat) (ptrs : Nat → Nat → E)
    (nb_ptrs : Nat) (lengths : Nat → Nat) (blk : DTWBlock) (s : DTWSettings)
    (a1 a2 : Bool) : Option (DistResult V) :=
  distSkeleton (fun r c => d (ptrs r) (lengths r) (ptrs c) (lengths c) s)
    lengthF blk nb_ptrs s a1 a2

/-- `dtw_distances_ndim_ptrs_parallel` (lines 128-157): ragged
multi-channel variant; the value for a pair is
`dtw_distance_ndim(ptrs[r], lengths[r], ptrs[c], lengths[c], ndim,
settings)` (lines 145-147). -/
def dtw_distances_ndim_ptrs_parallel {E V : Type} (dn : MetricN E V)
    (lengthF : DTWBlock → Nat → Bool → Nat) (ptrs : Nat → Nat → E)
    (nb_ptrs : Nat) (lengths : Nat → Nat) (ndim : Nat) (blk : DTWBlock)
    (s : DTWSettings) (a1 a2 : Bool) : Option (DistResult V) :=
  distSkeleton (fun r c => dn (ptrs r) (lengths r) (ptrs c) (lengths c) ndim s)
    lengthF blk nb_ptrs s a1 a2

/-- `dtw_distances_matrix_parallel` (lines 165-191): contiguous
single-channel variant; series `i` is the row `&matrix[i * nb_cols]` of
length `nb_cols`, so the value for a pair is
`dtw_distance(&matrix[r*nb_cols], nb_cols, &matrix[c*nb_cols], nb_cols,
settings)` (lines 181-182); `&matrix[k]` is the offset function
`fun i => matrix (k + i)`. -/
def dtw_distances_matrix_parallel {E V : Type} (d : Metric E V)
    (lengthF : DTWBlock → Nat → Bool → Nat) (matrix : Nat → E)
    (nb_rows nb_cols : Nat) (blk : DTWBlock) (s : DTWSettings)
    (a1 a2 : Bool) : Option (DistResult V) :=
  distSkeleton
    (fun r c => d (fun i => matrix (r * nb_cols + i)) nb_cols
      (fun i => matrix (c * nb_cols + i)) nb_cols s)
    lengthF blk nb_rows s a1 a2

/-- `dtw_distances_ndim_matrix_parallel` (lines 199-227): contiguous
multi-channel variant; series `i` starts at `&matrix[i * nb_cols * ndim]`
and the declared length is `nb_cols` (lines 215-217). -/
def dtw_distances_ndim_matrix_parallel {E V : Type} (dn : MetricN E V)
    (lengthF : DTWBlock → Nat → Bool → Nat) (matrix : Nat → E)
    (nb_rows nb_cols ndim : Nat) (blk : DTWBlock) (s : DTWSettings)
    (a1 a2 : Bool) : Option (DistResult V) :=
  distSkeleton
    (fun r c => dn (fun i => matrix (r * nb_cols * ndim + i)) nb_cols
      (fun i => matrix (c * nb_cols * ndim + i)) nb_cols ndim s)
    lengthF blk nb_rows s a1 a2

/-- Spec-side effective column start of row `r`:
`col_start(r) = max(r + 1, col_begin)` (spec section 3). -/
def colStart (cb r : Nat) : Nat := max (r + 1) cb

/-- Spec-side visited-column count of row `r`:
`max(0, col_end - max(r + 1, col_begin))` (truncated subtraction). -/
def rowCnt (cb ce r : Nat) : Nat := ce - colStart cb r

/-- Sum of the visited-column counts of the `n` rows starting at `r`. -/
def cntSum (cb ce r n : Nat) : Nat :=
  ((List.range' r n).map (rowCnt cb ce)).sum

/-- Total visited-pair count of a (normalized) block:
`Sum over r in [rb, re) of max(0, ce - max(r + 1, cb))` (spec section 8). -/
def sumLen (blk : DTWBlock) : Nat :=
  cntSum blk.cb blk.ce blk.rb (blk.re - blk.rb)

/-- Modelled from the spec: the external collaborator `dtw_distances_length`
is defined in `dtw.c`, which is not part of this repository snapshot.  Spec
section 6 describes it as computing "the exact total visited-pair count for
a normalized region", with `use_ssize_t` a pass-through flag selecting
32 or 64 bit counting (no effect on the count itself), and section 3 gives the
zero sentinels the meaning "through the end", so the count is taken over the
defaulted region. -/
def dtw_distances_length (blk : DTWBlock) (N : Nat) (_useSsize : Bool) : Nat :=
  sumLen (normBlock blk N)

/-- Spec-side restatement of the visiting/addressing discipline of claim C1:
given the planner's `row_offsets` list, row `r` visits exactly the columns
`max(r+1, col_begin), ..., col_end - 1` in increasing order and stores the
value for `(r, c)` at flat index `row_offsets[ir] + (c - col_start(r))`
(index arithmetic in `size_t`). -/
def visitSpec {V : Type} (v : Nat → Nat → V) (cb ce : Nat) :
    Nat → List Nat → List (Nat × V)
  | r, rsr :: rls =>
    ((List.range' (max (r + 1) cb) (ce - max (r + 1) cb)).map
      (fun c => (addSz rsr (c - max (r + 1) cb), v r c)))
      ++ visitSpec v cb ce (r + 1) rls
  | _, [] => []

/-- Proof-side pairing of `distLoopAux` that walks the planner's
`(cbs[ir], rls[ir])` pairs directly. -/
def distPairs {V : Type} (v : Nat → Nat → V) (ce : Nat) :
    Nat → List (Nat × Nat) → List (Nat × V)
  | r, (cbr, rsr) :: rest =>
    innerLoop (v r) rsr (ce - cbr) cbr 0 ++ distPairs v ce (r + 1) rest
  | _, [] => []

/-- Instrumented metric that reports which pair of series indices it was
invoked on: together with `idxSeries` it makes `v r c = (r, c)`. -/
def pairMetric : Metric Nat (Nat × Nat) := fun a _ b _ _ => (a 0, b 0)

/-- Series family in which series `i` carries its own index at offset 0. -/
def idxSeries : Nat → Nat → Nat := fun i _ => i

/-- Shorthand for the planner output of a (normalized) block. -/
def planOf (blk : DTWBlock) : List (Nat × Nat) :=
  planLoop blk.cb blk.ce (blk.re - blk.rb) blk.rb 0

lemma subSz_eq {a b : Nat} (hba : b ≤ a) (ha : a < szMod) : subSz a b = a - b := by
  simp only [subSz, szMod] at *
  omega

lemma addSz_eq {a b : Nat} (h : a + b < szMod) : addSz a b = a + b := by
  simp only [addSz, szMod] at *
  omega

lemma cbr_eq_max (cb r : Nat) :
    (if r + 1 > cb then r + 1 else cb) = max (r + 1) cb := by
  by_cases h : r + 1 > cb
  · rw [if_pos h, Nat.max_eq_left (by omega)]
  · rw [if_neg h, Nat.max_eq_right (by omega)]

lemma normBlock_id {blk : DTWBlock} (N : Nat) (h1 : blk.rb < blk.re)
    (h2 : blk.cb < blk.ce) : normBlock blk N = blk := by
  have hre : blk.re ≠ 0 := by omega
  have hce : blk.ce ≠ 0 := by omega
  simp [normBlock, hre, hce]

lemma zip_fst_snd {α β : Type} : ∀ l : List (α × β),
    (l.map Prod.fst).zip (l.map Prod.snd) = l
  | [] => rfl
  | (a, b) :: rest => by simp [zip_fst_snd rest]

lemma prepare_eq_some (f : DTWBlock → Nat → Bool → Nat) (blk : DTWBlock)
    (N : Nat) (s : DTWSettings)
    (h1 : (normBlock blk N).rb < (normBlock blk N).re)
    (h2 : (normBlock blk N).cb < (normBlock blk N).ce) :
    dtw_distances_prepare f blk N true true s = some
      { ret := 0, length := f blk N s.use_ssize_t, block := normBlock blk N,
        cbsCap := (normBlock blk N).ce - (normBlock blk N).cb,
        rlsCap := (normBlock blk N).ce - (normBlock blk N).cb,
        cbs := some ((planOf (normBlock blk N)).map Prod.fst),
        rls := some ((planOf (normBlock blk N)).map Prod.snd) } := by
  simp only [dtw_distances_prepare, planOf]
  rw [if_neg (by omega), if_neg (by omega)]
  rfl

lemma distSkeleton_eq {V : Type} (v : Nat → Nat → V)
    (f : DTWBlock → Nat → Bool → Nat) (blk : DTWBlock) (N : Nat)
    (s : DTWSettings)
    (h1 : (normBlock blk N).rb < (normBlock blk N).re)
    (h2 : (normBlock blk N).cb < (normBlock blk N).ce) :
    distSkeleton v f blk N s true true = some
      { ret := f blk N s.use_ssize_t, block := normBlock blk N,
        writes := distLoopAux v (normBlock blk N).ce (normBlock blk N).rb
          ((planOf (normBlock blk N)).map Prod.fst)
          ((planOf (normBlock blk N)).map Prod.snd) } := by
  unfold distSkeleton
  rw [prepare_eq_some f blk N s h1 h2]
  rfl

lemma innerLoop_eq {V : Type} (val : Nat → V) (rsr : Nat) : ∀ n c ci,
    innerLoop val rsr n c ci
      = (List.range' c n).map (fun x => (addSz rsr (ci + (x - c)), val x))
  | 0, c, ci => by simp [innerLoop]
  | n + 1, c, ci => by
    rw [List.range'_succ]
    simp only [innerLoop, List.map_cons, Nat.sub_self, Nat.add_zero,
      List.cons.injEq]
    refine ⟨by trivial, ?_⟩
    rw [innerLoop_eq val rsr n (c + 1) (ci + 1)]
    apply List.map_congr_left
    intro x hx
    rw [List.mem_range'_1] at hx
    have : ci + (x - c) = ci + 1 + (x - (c + 1)) := by omega
    rw [this]

lemma distLoopAux_eq_pairs {V : Type} (v : Nat → Nat → V) (ce : Nat) :
    ∀ (l : List (Nat × Nat)) (r : Nat),
    distLoopAux v ce r (l.map Prod.fst) (l.map Prod.snd) = distPairs v ce r l
  | [], _ => rfl
  | (a, b) :: rest, r => by
    simp only [List.map_cons, distLoopAux, distPairs]
    rw [distLoopAux_eq_pairs v ce rest (r + 1)]

lemma planLoop_fst (cb ce : Nat) : ∀ n r rs,
    (planLoop cb ce n r rs).map Prod.fst = (List.range' r n).map (colStart cb)
  | 0, _, _ => rfl
  | n + 1, r, rs => by
    rw [List.range'_succ]
    simp only [planLoop, List.map_cons, List.cons.injEq]
    exact ⟨cbr_eq_max cb r, planLoop_fst cb ce n (r + 1) _⟩

lemma map_shift_range' : ∀ n s t,
    (List.range' s n).map (fun x => t + (x - s)) = List.range' t n
  | 0, _, _ => rfl
  | n + 1, s, t => by
    rw [List.range'_succ, List.range'_succ]
    simp only [List.map_cons, Nat.sub_self, Nat.add_zero, List.cons.injEq]
    refine ⟨by trivial, ?_⟩
    rw [← map_shift_range' n (s + 1) (t + 1)]
    apply List.map_congr_left
    intro x hx
    rw [List.mem_range'_1] at hx
    have : t + (x - s) = t + 1 + (x - (s + 1)) := by omega
    rw [this]

lemma cntSum_succ (cb ce r n : Nat) :
    cntSum cb ce r (n + 1) = rowCnt cb ce r + cntSum cb ce (r + 1) n := by
  simp [cntSum, List.range'_succ]

lemma distPairs_zeroTail {V : Type} (v : Nat → Nat → V) (cb ce : Nat) :
    ∀ n r rs, ce ≤ r + 1 →
    distPairs v ce r (planLoop cb ce n r rs) = [] ∧ cntSum cb ce r n = 0
  | 0, _, _, _ => ⟨rfl, rfl⟩
  | n + 1, r, rs, h => by
    have hc : ce - (if r + 1 > cb then r + 1 else cb) = 0 := by
      rw [cbr_eq_max]
      exact Nat.sub_eq_zero_of_le (le_trans h (Nat.le_max_left _ _))
    obtain ⟨ih1, ih2⟩ := distPairs_zeroTail v cb ce n (r + 1)
      (addSz rs (subSz ce (if r + 1 > cb then r + 1 else cb))) (by omega)
    constructor
    · simp only [planLoop, distPairs, hc, innerLoop, List.nil_append]
      exact ih1
    · rw [cntSum_succ, ih2]
      have : rowCnt cb ce r = 0 :=
        Nat.sub_eq_zero_of_le (le_trans h (Nat.le_max_left _ _))
      omega

lemma distPairs_fst {V : Type} (v : Nat → Nat → V) (cb ce : Nat)
    (hcb : cb < ce) (hce : ce < szMod) : ∀ n r rs,
    rs + cntSum cb ce r n < szMod →
    (distPairs v ce r (planLoop cb ce n r rs)).map Prod.fst
      = List.range' rs (cntSum cb ce r n)
  | 0, r, rs, _ => by simp [planLoop, distPairs, cntSum]
  | n + 1, r, rs, h => by
    by_cases hr : ce ≤ r + 1
    · obtain ⟨h1, h2⟩ := distPairs_zeroTail v cb ce (n + 1) r rs hr
      rw [h1, h2]
      rfl
    · push_neg at hr
      have hm : max (r + 1) cb < ce := by omega
      rw [cntSum_succ] at h ⊢
      simp only [rowCnt, colStart] at h ⊢
      have hsub : subSz ce (max (r + 1) cb) = ce - max (r + 1) cb :=
        subSz_eq (Nat.le_of_lt hm) hce
      have hadd : addSz rs (ce - max (r + 1) cb) = rs + (ce - max (r + 1) cb) :=
        addSz_eq (by omega)
      simp only [planLoop, cbr_eq_max, distPairs, List.map_append]
      rw [hsub, hadd,
        distPairs_fst v cb ce hcb hce n (r + 1) (rs + (ce - max (r + 1) cb))
          (by omega)]
      rw [innerLoop_eq, List.map_map]
      have hfst : ((List.range' (max (r + 1) cb) (ce - max (r + 1) cb)).map
          (Prod.fst ∘ fun x => (addSz rs (0 + (x - max (r + 1) cb)), v r x)))
          = List.range' rs (ce - max (r + 1) cb) := by
        rw [← map_shift_range' (ce - max (r + 1) cb) (max (r + 1) cb) rs]
        apply List.map_congr_left
        intro x hx
        rw [List.mem_range'_1] at hx
        show addSz rs (0 + (x - max (r + 1) cb)) = rs + (x - max (r + 1) cb)
        rw [Nat.zero_add, addSz_eq (by omega)]
      rw [hfst, List.range'_append_1,
        Nat.add_comm (cntSum cb ce (r + 1) n) (ce - max (r + 1) cb)]

lemma count_pair_range' (r0 c0 : Nat) : ∀ k m,
    ((List.range' m k).map (fun x => ((r0, x) : Nat × Nat))).count (r0, c0)
      = if m ≤ c0 ∧ c0 < m + k then 1 else 0
  | 0, m => by
    simp only [List.range'_zero, List.map_nil, List.count_nil]
    rw [if_neg (by omega)]
  | k + 1, m => by
    rw [List.range'_succ]
    simp only [List.map_cons, List.count_cons, beq_iff_eq, Prod.mk.injEq,
      true_and]
    rw [count_pair_range' r0 c0 k (m + 1)]
    split_ifs <;> omega

lemma distPairs_count (cb ce : Nat) (hcb : cb < ce) : ∀ n r rs r0 c0,
    ((distPairs (fun a b => (a, b)) ce r (planLoop cb ce n r rs)).map
      Prod.snd).count (r0, c0)
      = if r ≤ r0 ∧ r0 < r + n ∧ max (r0 + 1) cb ≤ c0 ∧ c0 < ce then 1 else 0
  | 0, r, rs, r0, c0 => by
    simp only [planLoop, distPairs, List.map_nil, List.count_nil]
    rw [if_neg (by omega)]
  | n + 1, r, rs, r0, c0 => by
    simp only [planLoop, cbr_eq_max, distPairs, List.map_append,
      List.count_append]
    rw [innerLoop_eq, List.map_map]
    have hcomp : (Prod.snd ∘ fun x =>
        (addSz rs (0 + (x - max (r + 1) cb)), ((r, x) : Nat × Nat)))
        = fun x => ((r, x) : Nat × Nat) := rfl
    rw [hcomp, distPairs_count cb ce hcb n (r + 1) _ r0 c0]
    by_cases hr0 : r0 = r
    · subst hr0
      have h1 : ((List.range' (max (r0 + 1) cb) (ce - max (r0 + 1) cb)).map
          (fun x => ((r0, x) : Nat × Nat))).count (r0, c0)
          = if max (r0 + 1) cb ≤ c0 ∧ c0 < ce then 1 else 0 := by
        rw [count_pair_range']
        exact if_congr (by omega) rfl rfl
      rw [h1]
      split_ifs <;> omega
    · have h0 : ((List.range' (max (r + 1) cb) (ce - max (r + 1) cb)).map
          (fun x => ((r, x) : Nat × Nat))).count (r0, c0) = 0 := by
        rw [List.count_eq_zero]
        intro hmem
        rw [List.mem_map] at hmem
        obtain ⟨x, _, hx⟩ := hmem
        exact hr0 (congrArg Prod.fst hx).symm
      rw [h0]
      split_ifs <;> omega

lemma planLoop_chain (cb ce : Nat) (hcb : cb < ce) (hce : ce < szMod) :
    ∀ n r rs, r + n ≤ ce → rs + cntSum cb ce r n < szMod →
    (planLoop cb ce n r rs).Chain'
      (fun x y => x.2 ≤ y.2 ∧ (x.2 = y.2 → ce - x.1 = 0))
  | 0, _, _, _, _ => by simp [planLoop]
  | n + 1, r, rs, hr, hs => by
    have hm : max (r + 1) cb ≤ ce := by omega
    have hsub : subSz ce (max (r + 1) cb) = ce - max (r + 1) cb :=
      subSz_eq hm hce
    rw [cntSum_succ] at hs
    simp only [rowCnt, colStart] at hs
    have hadd : addSz rs (ce - max (r + 1) cb) = rs + (ce - max (r + 1) cb) :=
      addSz_eq (by omega)
    simp only [planLoop, cbr_eq_max]
    rw [List.chain'_cons']
    refine ⟨?_, ?_⟩
    · intro y hy
      cases n with
      | zero => simp [planLoop] at hy
      | succ m =>
        simp only [planLoop, cbr_eq_max, List.head?_cons, Option.mem_def,
          Option.some.injEq] at hy
        subst hy
        refine ⟨?_, ?_⟩
        · show rs ≤ addSz rs (subSz ce (max (r + 1) cb))
          rw [hsub, hadd]
          omega
        · show rs = addSz rs (subSz ce (max (r + 1) cb)) →
            ce - max (r + 1) cb = 0
          rw [hsub, hadd]
          intro heq
          omega
    · rw [hsub, hadd]
      exact planLoop_chain cb ce hcb hce n (r + 1)
        (rs + (ce - max (r + 1) cb)) (by omega) (by omega)

lemma distPairs_eq_visitSpec {V : Type} (v : Nat → Nat → V) (cb ce : Nat) :
    ∀ n r rs, distPairs v ce r (planLoop cb ce n r rs)
      = visitSpec v cb ce r ((planLoop cb ce n r rs).map Prod.snd)
  | 0, _, _ => rfl
  | n + 1, r, rs => by
    simp only [planLoop, cbr_eq_max, distPairs, List.map_cons, visitSpec]
    congr 1
    · rw [innerLoop_eq]
      apply List.map_congr_left
      intro x hx
      rw [Nat.zero_add]
    · exact distPairs_eq_visitSpec v cb ce n (r + 1) _

lemma prepare_block (f : DTWBlock → Nat → Bool → Nat) (blk : DTWBlock)
    (N : Nat) (a1 a2 : Bool) (s : DTWSettings) : ∀ p,
    dtw_distances_prepare f blk N a1 a2 s = some p →
    p.block = normBlock blk N := by
  intro p hp
  simp only [dtw_distances_prepare] at hp
  split at hp
  · injection hp with h
    rw [← h]
  · split at hp
    · injection hp with h
      rw [← h]
    · split at hp
      · injection hp with h
        rw [← h]
      · cases hp

lemma distSkeleton_block {V : Type} (v : Nat → Nat → V)
    (f : DTWBlock → Nat → Bool → Nat) (blk : DTWBlock) (N : Nat)
    (s : DTWSettings) (a1 a2 : Bool) : ∀ res,
    distSkeleton v f blk N s a1 a2 = some res →
    res.block = normBlock blk N := by
  intro res hres
  unfold distSkeleton at hres
  cases hprep : dtw_distances_prepare f blk N a1 a2 s with
  | none => rw [hprep] at hres; cases hres
  | some p =>
    rw [hprep] at hres
    simp only [] at hres
    have hpb := prepare_block f blk N a1 a2 s p hprep
    by_cases hret : p.ret ≠ 0
    · rw [if_pos hret] at hres
      injection hres with h
      rw [← h]
      exact hpb
    · rw [if_neg hret] at hres
      rcases hc : p.cbs with _ | cbs <;> rcases hr : p.rls with _ | rls <;>
        rw [hc, hr] at hres
      · cases hres
      · cases hres
      · cases hres
      · injection hres with h
        rw [← h]
        exact hpb

lemma prepare_plan (f : DTWBlock → Nat → Bool → Nat) (blk : DTWBlock)
    (N : Nat) (a1 a2 : Bool) (s : DTWSettings) : ∀ p,
    dtw_distances_prepare f blk N a1 a2 s = some p → p.ret = 0 →
    p.cbs = some ((planOf (normBlock blk N)).map Prod.fst) ∧
    p.rls = some ((planOf (normBlock blk N)).map Prod.snd) := by
  intro p hp hret
  simp only [dtw_distances_prepare] at hp
  simp only [planOf]
  split at hp
  · injection hp with h
    rw [← h] at hret
    exact absurd hret one_ne_zero
  · split at hp
    · injection hp with h
      rw [← h] at hret
      exact absurd hret one_ne_zero
    · split at hp
      · injection hp with h
        rw [← h]
        exact ⟨rfl, rfl⟩
      · cases hp

/-- Claim C1: for every normalized non-empty region, every variant entry
point visits, for each row `r` in `[rb, re)`, exactly the columns `c` from
`max(r+1, cb)` through `ce - 1` in increasing order, and stores the metric
value for the pair `(r, c)` at flat-buffer index
`row_offsets[r-rb] + (c - col_starts[r-rb])` (index arithmetic in `size_t`),
where `col_starts` is the planner's `cbs` sequence, whose entry for row `r`
is `max(r+1, cb)`; `visitSpec` is the spec-side statement of this
visiting/addressing discipline. -/
theorem dtw_C1 {E V : Type} (d : Metric E V) (dn : MetricN E V)
    (f : DTWBlock → Nat → Bool → Nat) (ptrs : Nat → Nat → E)
    (lengths : Nat → Nat) (matrix : Nat → E) (nb_cols ndim N : Nat)
    (blk : DTWBlock) (s : DTWSettings)
    (h1 : blk.rb < blk.re) (h2 : blk.cb < blk.ce) :
    ∃ p RLS, dtw_distances_prepare f blk N true true s = some p ∧
      p.cbs = some ((List.range' blk.rb (blk.re - blk.rb)).map
        (fun r => max (r + 1) blk.cb)) ∧
      p.rls = some RLS ∧
      ((dtw_distances_ptrs_parallel d f ptrs N lengths blk s true true).map
          DistResult.writes
        = some (visitSpec
            (fun r c => d (ptrs r) (lengths r) (ptrs c) (lengths c) s)
            blk.cb blk.ce blk.rb RLS)) ∧
      ((dtw_distances_ndim_ptrs_parallel dn f ptrs N lengths ndim blk s
          true true).map DistResult.writes
        = some (visitSpec
            (fun r c => dn (ptrs r) (lengths r) (ptrs c) (lengths c) ndim s)
            blk.cb blk.ce blk.rb RLS)) ∧
      ((dtw_distances_matrix_parallel d f matrix N nb_cols blk s true
          true).map DistResult.writes
        = some (visitSpec
            (fun r c => d (fun i => matrix (r * nb_cols + i)) nb_cols
              (fun i => matrix (c * nb_cols + i)) nb_cols s)
            blk.cb blk.ce blk.rb RLS)) ∧
      ((dtw_distances_ndim_matrix_parallel dn f matrix N nb_cols ndim blk s
          true true).map DistResult.writes
        = some (visitSpec
            (fun r c => dn (fun i => matrix (r * nb_cols * ndim + i)) nb_cols
              (fun i => matrix (c * nb_cols * ndim + i)) nb_cols ndim s)
            blk.cb blk.ce blk.rb RLS)) := by
  have hn : normBlock blk N = blk := normBlock_id N h1 h2
  have h1' : (normBlock blk N).rb < (normBlock blk N).re := by
    rw [hn]; exact h1
  have h2' : (normBlock blk N).cb < (normBlock blk N).ce := by
    rw [hn]; exact h2
  have hp := prepare_eq_some f blk N s h1' h2'
  rw [hn] at hp
  have key : ∀ {V' : Type} (v : Nat → Nat → V'),
      (distSkeleton v f blk N s true true).map DistResult.writes
        = some (visitSpec v blk.cb blk.ce blk.rb
            ((planOf blk).map Prod.snd)) := by
    intro V' v
    rw [distSkeleton_eq v f blk N s h1' h2', hn]
    simp only [Option.map_some']
    simp only [planOf]
    rw [distLoopAux_eq_pairs, distPairs_eq_visitSpec]
  refine ⟨_, (planOf blk).map Prod.snd, hp, ?_, rfl, key _, key _, key _,
    key _⟩
  simp only [planOf, planLoop_fst]
  rfl

/-- Witness for C1 at the spec's own scenario: `N = 4`, full region.  Using
the instrumented metric that returns the pair of series indices, the writes
are row 0's values for columns 1, 2, 3 at offsets 0, 1, 2, row 1's for
2, 3 at offsets 3, 4, row 2's for 3 at offset 5, and nothing for row 3. -/
theorem dtw_C1_witness :
    (dtw_distances_ptrs_parallel pairMetric dtw_distances_length idxSeries 4
        (fun _ => 1) ⟨0, 4, 0, 4⟩ ⟨false⟩ true true).map DistResult.writes
      = some [(0, (0, 1)), (1, (0, 2)), (2, (0, 3)), (3, (1, 2)),
          (4, (1, 3)), (5, (2, 3))] := by
  obtain ⟨p, RLS, hp, hcbs, hrls, h4, -, -, -⟩ :=
    dtw_C1 pairMetric (fun a _ b _ _ _ => ((a 0, b 0) : Nat × Nat))
      dtw_distances_length idxSeries (fun _ => 1) (fun k => k) 1 1 4
      ⟨0, 4, 0, 4⟩ ⟨false⟩ (by decide) (by decide)
  have hpv : p =
      { ret := 0, length := 6, block := ⟨0, 4, 0, 4⟩, cbsCap := 4,
        rlsCap := 4, cbs := some [1, 2, 3, 4], rls := some [0, 3, 5, 6] } :=
    Option.some.inj (hp.symm.trans (by decide))
  subst hpv
  injection hrls with hR
  subst hR
  rw [h4]
  decide

/-- Claim C2: for every valid region (bounds satisfying
`rb < re <= N` and `cb < ce <= N` after zero-sentinel defaulting), each of
the four entry points returns a total output length equal to
`Sum over r in [rb, re) of max(0, ce - max(r+1, cb))` (with `re`, `ce` the
defaulted bounds; the external length collaborator is the spec-modelled
`dtw_distances_length`). -/
theorem dtw_C2 {E V : Type} (d : Metric E V) (dn : MetricN E V)
    (ptrs : Nat → Nat → E) (lengths : Nat → Nat) (matrix : Nat → E)
    (nb_cols ndim N : Nat) (blk : DTWBlock) (s : DTWSettings)
    (h1 : blk.rb < (normBlock blk N).re) (h2 : blk.cb < (normBlock blk N).ce)
    (h3 : (normBlock blk N).re ≤ N) (h4 : (normBlock blk N).ce ≤ N) :
    ((dtw_distances_ptrs_parallel d dtw_distances_length ptrs N lengths blk
        s true true).map DistResult.ret
      = some (((List.range' blk.rb ((normBlock blk N).re - blk.rb)).map
          (fun r => (normBlock blk N).ce - max (r + 1) blk.cb)).sum)) ∧
    ((dtw_distances_ndim_ptrs_parallel dn dtw_distances_length ptrs N
        lengths ndim blk s true true).map DistResult.ret
      = some (((List.range' blk.rb ((normBlock blk N).re - blk.rb)).map
          (fun r => (normBlock blk N).ce - max (r + 1) blk.cb)).sum)) ∧
    ((dtw_distances_matrix_parallel d dtw_distances_length matrix N nb_cols
        blk s true true).map DistResult.ret
      = some (((List.range' blk.rb ((normBlock blk N).re - blk.rb)).map
          (fun r => (normBlock blk N).ce - max (r + 1) blk.cb)).sum)) ∧
    ((dtw_distances_ndim_matrix_parallel dn dtw_distances_length matrix N
        nb_cols ndim blk s true true).map DistResult.ret
      = some (((List.range' blk.rb ((normBlock blk N).re - blk.rb)).map
          (fun r => (normBlock blk N).ce - max (r + 1) blk.cb)).sum)) := by
  have key : ∀ {V' : Type} (v : Nat → Nat → V'),
      (distSkeleton v dtw_distances_length blk N s true true).map
          DistResult.ret
        = some (sumLen (normBlock blk N)) := by
    intro V' v
    rw [distSkeleton_eq v dtw_distances_length blk N s h1 h2]
    rfl
  exact ⟨key _, key _, key _, key _⟩

/-- Witness for C2 at the sentinel block `(0, 0, 0, 0)` with `N = 4`
(defaulting to the full region): the returned length is the triangular
count 6. -/
theorem dtw_C2_witness :
    (dtw_distances_ptrs_parallel (fun _ _ _ _ _ => (0 : Nat))
        dtw_distances_length (fun i _ => i) 4 (fun _ => 1) ⟨0, 0, 0, 0⟩
        ⟨false⟩ true true).map DistResult.ret
      = some (((List.range' 0 ((normBlock ⟨0, 0, 0, 0⟩ 4).re - 0)).map
          (fun r => (normBlock ⟨0, 0, 0, 0⟩ 4).ce - max (r + 1) 0)).sum) :=
  (dtw_C2 (fun _ _ _ _ _ => (0 : Nat)) (fun _ _ _ _ _ _ => (0 : Nat))
    (fun i _ => i) (fun _ => 1) (fun k => k) 1 1 4 ⟨0, 0, 0, 0⟩ ⟨false⟩
    (by decide) (by decide) (by decide) (by decide)).1

/-- Claim C4: for every valid region (with the `size_t`-representability
side conditions that the defaulted `ce` and the total visited-pair count
are below `2^64`), (a) for every metric and series data, the flat indices
written by `dtw_distances_ptrs_parallel` are exactly `0, ..., total - 1` in
order — the per-row slices are pairwise disjoint and cover the output
buffer exactly once — and (b) with the instrumented metric that reports the
pair of series indices, each pair `(r, c)` with `rb ≤ r < re` and
`max(r+1, cb) ≤ c < ce` is written exactly once and no pair with `c ≤ r`
is ever written (count 0 for any other pair). -/
theorem dtw_C4 (N : Nat) (blk : DTWBlock) (s : DTWSettings)
    (h1 : blk.rb < (normBlock blk N).re) (h2 : blk.cb < (normBlock blk N).ce)
    (h3 : (normBlock blk N).re ≤ N) (h4 : (normBlock blk N).ce ≤ N)
    (h5 : (normBlock blk N).ce < szMod)
    (h6 : sumLen (normBlock blk N) < szMod) :
    (∀ (E V : Type) (d : Metric E V) (f : DTWBlock → Nat → Bool → Nat)
        (ptrs : Nat → Nat → E) (lengths : Nat → Nat),
      (dtw_distances_ptrs_parallel d f ptrs N lengths blk s true true).map
          (fun res => res.writes.map Prod.fst)
        = some (List.range (sumLen (normBlock blk N)))) ∧
    (∀ r c : Nat,
      (((dtw_distances_ptrs_parallel pairMetric dtw_distances_length
          idxSeries N (fun _ => 0) blk s true true).map
            (fun res => res.writes.map Prod.snd)).getD []).count (r, c)
        = if blk.rb ≤ r ∧ r < (normBlock blk N).re
            ∧ max (r + 1) blk.cb ≤ c ∧ c < (normBlock blk N).ce
          then 1 else 0) := by
  constructor
  · intro E V d f ptrs lengths
    show (distSkeleton
        (fun r c => d (ptrs r) (lengths r) (ptrs c) (lengths c) s) f blk N s
        true true).map (fun res => res.writes.map Prod.fst)
      = some (List.range (sumLen (normBlock blk N)))
    rw [distSkeleton_eq _ f blk N s h1 h2]
    simp only [Option.map_some', planOf]
    rw [distLoopAux_eq_pairs,
      distPairs_fst _ (normBlock blk N).cb (normBlock blk N).ce h2 h5
        ((normBlock blk N).re - (normBlock blk N).rb)
        (normBlock blk N).rb 0 (by simpa using h6),
      List.range_eq_range']
    rfl
  · intro r c
    show (((distSkeleton (fun a b => ((a, b) : Nat × Nat))
        dtw_distances_length blk N s true true).map
          (fun res => res.writes.map Prod.snd)).getD []).count (r, c) = _
    rw [distSkeleton_eq _ dtw_distances_length blk N s h1 h2]
    simp only [Option.map_some', Option.getD_some, planOf]
    rw [distLoopAux_eq_pairs,
      distPairs_count (normBlock blk N).cb (normBlock blk N).ce h2
        ((normBlock blk N).re - (normBlock blk N).rb)
        (normBlock blk N).rb 0 r c]
    have hrb : (normBlock blk N).rb = blk.rb := rfl
    have hcb : (normBlock blk N).cb = blk.cb := rfl
    rw [hrb, hcb]
    exact if_congr (by omega) rfl rfl

/-- Witness for C4 at `N = 4`, full region: the written indices are
`0, ..., 5` and the pair `(0, 1)` is written exactly once. -/
theorem dtw_C4_witness :
    ((dtw_distances_ptrs_parallel (fun _ _ _ _ _ => (0 : Nat))
        dtw_distances_length (fun i _ => i) 4 (fun _ => 1) ⟨0, 4, 0, 4⟩
        ⟨false⟩ true true).map (fun res => res.writes.map Prod.fst)
      = some (List.range (sumLen (normBlock ⟨0, 4, 0, 4⟩ 4)))) ∧
    ((((dtw_distances_ptrs_parallel pairMetric dtw_distances_length
        idxSeries 4 (fun _ => 0) ⟨0, 4, 0, 4⟩ ⟨false⟩ true true).map
          (fun res => res.writes.map Prod.snd)).getD []).count (0, 1)
      = if (0 : Nat) ≤ 0 ∧ 0 < (normBlock (⟨0, 4, 0, 4⟩ : DTWBlock) 4).re
          ∧ max 1 0 ≤ 1 ∧ 1 < (normBlock (⟨0, 4, 0, 4⟩ : DTWBlock) 4).ce
        then 1 else 0) :=
  ⟨(dtw_C4 4 ⟨0, 4, 0, 4⟩ ⟨false⟩ (by decide) (by decide) (by decide)
      (by decide) (by decide) (by decide)).1 Nat Nat
      (fun _ _ _ _ _ => (0 : Nat)) dtw_distances_length (fun i _ => i)
      (fun _ => 1),
   (dtw_C4 4 ⟨0, 4, 0, 4⟩ ⟨false⟩ (by decide) (by decide) (by decide)
      (by decide) (by decide) (by decide)).2 0 1⟩

/-- Counterexample for claim C6 as stated: the caller-supplied block is NOT
left unchanged — calling the ragged single-channel entry point with the
sentinel block `(0, 0, 0, 0)` and `N = 4` leaves the block at
`(0, 4, 0, 4)`, because the zero-sentinel defaulting (lines 35-40) writes
`block->re = nb_series` and `block->ce = nb_series` in place. -/
theorem dtw_C6_cex :
    ((dtw_distances_ptrs_parallel (fun _ _ _ _ _ => (0 : Nat))
        dtw_distances_length (fun i _ => i) 4 (fun _ => 1) ⟨0, 0, 0, 0⟩
        ⟨false⟩ true true).map DistResult.block
      = some ⟨0, 4, 0, 4⟩) ∧
    (⟨0, 4, 0, 4⟩ : DTWBlock) ≠ ⟨0, 0, 0, 0⟩ := by decide

/-- Claim C6 as amended: every entry point's only side effects beyond the
output-buffer writes and the transient planner sequences are the in-place
zero-sentinel defaulting of the caller-supplied block: on every call that
returns, the block ends up exactly at its normalized value (`rb` and `cb`
unchanged, `re`/`ce` replaced by `N` when `0`), and nothing else
caller-visible changes. -/
theorem dtw_C6_amended {E V : Type} (d : Metric E V) (dn : MetricN E V)
    (f : DTWBlock → Nat → Bool → Nat) (ptrs : Nat → Nat → E)
    (lengths : Nat → Nat) (matrix : Nat → E) (nb_cols ndim N : Nat)
    (blk : DTWBlock) (s : DTWSettings) (a1 a2 : Bool) :
    (∀ res, dtw_distances_ptrs_parallel d f ptrs N lengths blk s a1 a2
      = some res → res.block = normBlock blk N) ∧
    (∀ res, dtw_distances_ndim_ptrs_parallel dn f ptrs N lengths ndim blk s
      a1 a2 = some res → res.block = normBlock blk N) ∧
    (∀ res, dtw_distances_matrix_parallel d f matrix N nb_cols blk s a1 a2
      = some res → res.block = normBlock blk N) ∧
    (∀ res, dtw_distances_ndim_matrix_parallel dn f matrix N nb_cols ndim
      blk s a1 a2 = some res → res.block = normBlock blk N) :=
  ⟨fun res h => distSkeleton_block _ f blk N s a1 a2 res h,
   fun res h => distSkeleton_block _ f blk N s a1 a2 res h,
   fun res h => distSkeleton_block _ f blk N s a1 a2 res h,
   fun res h => distSkeleton_block _ f blk N s a1 a2 res h⟩

/-- Witness for the amended C6 at the sentinel block `(0, 0, 0, 0)`,
`N = 4`: the returned block is the normalized one. -/
theorem dtw_C6_witness :
    ({ ret := 6, block := ⟨0, 4, 0, 4⟩,
       writes := [(0, 0), (1, 0), (2, 0), (3, 0), (4, 0), (5, 0)] } :
        DistResult Nat).block
      = normBlock ⟨0, 0, 0, 0⟩ 4 :=
  (dtw_C6_amended (fun _ _ _ _ _ => (0 : Nat)) (fun _ _ _ _ _ _ => (0 : Nat))
    dtw_distances_length (fun i _ => i) (fun _ => 1) (fun k => k) 1 1 4
    ⟨0, 0, 0, 0⟩ ⟨false⟩ true true).1 _ (by decide)

/-- Claim C5, evaluated at the failing inputs: a genuine EmptyRegion
failure (block `(3, 2, 0, 0)`, `row_end <= row_begin` after defaulting) and
a legitimately empty successful region (block `(2, 4, 0, 2)` with `N = 4`,
valid but with zero visited pairs) both surface to the entry point's caller
as the bare return value `0` — no distinguishable error signal exists at
the caller, even though `dtw_distances_prepare` internally returns `1` in
the first case and `0` in the second. -/
theorem dtw_C5_eval :
    ((dtw_distances_ptrs_parallel (fun _ _ _ _ _ => (0 : Nat))
        dtw_distances_length (fun i _ => i) 4 (fun _ => 1) ⟨3, 2, 0, 0⟩
        ⟨false⟩ true true).map DistResult.ret = some 0) ∧
    ((dtw_distances_ptrs_parallel (fun _ _ _ _ _ => (0 : Nat))
        dtw_distances_length (fun i _ => i) 4 (fun _ => 1) ⟨2, 4, 0, 2⟩
        ⟨false⟩ true true).map DistResult.ret = some 0) ∧
    ((dtw_distances_prepare dtw_distances_length ⟨3, 2, 0, 0⟩ 4 true true
        ⟨false⟩).map PrepResult.ret = some 1) ∧
    ((dtw_distances_prepare dtw_distances_length ⟨2, 4, 0, 2⟩ 4 true true
        ⟨false⟩).map PrepResult.ret = some 0) := by decide

/-- Claim C3, evaluated at the failing input: for block `(0, 3, 0, 2)` with
`N = 3` (a valid region with 3 rows but a 2-column span), the planner
mallocs `ce - cb = 2` slots for each sequence (lines 50 and 56) yet the
planning loop performs 3 writes into each (indices 0, 1, 2), so the write
at index 2 is out of the allocated bounds — the allocation is NOT sized by
row count `re - rb` as the claim states. -/
theorem dtw_C3_eval :
    (dtw_distances_prepare dtw_distances_length ⟨0, 3, 0, 2⟩ 3 true true
        ⟨false⟩).map (fun p => (p.cbsCap, p.rlsCap, (p.cbs.getD []).length,
          (p.rls.getD []).length))
      = some (2, 2, 3, 3) := by decide

/-- Claim C8, evaluated at the failing input: when the second planner
allocation fails (`a2 = false`), `dtw_distances_prepare` does not detect
the failure (the checks at lines 51 and 57 test the addresses of the out
parameters, which are never null) — execution reaches the planning loop
and writes through the null pointer (undefined behavior, embedded as
`none`) instead of returning nonzero with the length zeroed and the first
sequence freed; with both allocations succeeding the same call returns
length 6. -/
theorem dtw_C8_eval :
    (dtw_distances_prepare dtw_distances_length ⟨0, 4, 0, 4⟩ 4 true false
        ⟨false⟩ = none) ∧
    ((dtw_distances_prepare dtw_distances_length ⟨0, 4, 0, 4⟩ 4 true true
        ⟨false⟩).map PrepResult.length = some 6) := by decide

/-- Counterexample for claim C7 as stated: for the normalized non-empty
region `(0, 4, 0, 2)` with `N = 4` — which contains rows with
`r + 1 > col_end` — the planner's `row_offsets` sequence is
`[0, 1, 1, 0]`, which is NOT non-decreasing: the `size_t` underflow of
`ce - cb_r` at row 2 wraps the accumulator back down. -/
theorem dtw_C7_cex :
    ((dtw_distances_prepare dtw_distances_length ⟨0, 4, 0, 2⟩ 4 true true
        ⟨false⟩).map PrepResult.rls = some (some [0, 1, 1, 0])) ∧
    ([0, 1, 1, 0].getD 3 0 < [0, 1, 1, 0].getD 2 0) := by decide

/-- Claim C7 as amended: for every normalized non-empty region in which no
row has `r + 1 > col_end` (equivalently `row_end ≤ col_end`) and whose
total visited-pair count fits in `size_t`, the planner's `row_offsets`
sequence is non-decreasing, and consecutive entries are equal only when
that row's visited-column count (`ce - col_start`) is zero.  (For regions
containing rows with `r + 1 > col_end` the sequence can decrease, see the
counterexample.) -/
theorem dtw_C7_amended (f : DTWBlock → Nat → Bool → Nat) (blk : DTWBlock)
    (N : Nat) (s : DTWSettings) (h1 : blk.rb < blk.re)
    (h2 : blk.cb < blk.ce) (h3 : blk.re ≤ blk.ce) (h4 : blk.ce < szMod)
    (h5 : sumLen blk < szMod) :
    ∃ p CBS RLS, dtw_distances_prepare f blk N true true s = some p ∧
      p.cbs = some CBS ∧ p.rls = some RLS ∧
      (CBS.zip RLS).Chain'
        (fun x y => x.2 ≤ y.2 ∧ (x.2 = y.2 → blk.ce - x.1 = 0)) := by
  have hn : normBlock blk N = blk := normBlock_id N h1 h2
  have h1' : (normBlock blk N).rb < (normBlock blk N).re := by
    rw [hn]; exact h1
  have h2' : (normBlock blk N).cb < (normBlock blk N).ce := by
    rw [hn]; exact h2
  have hp := prepare_eq_some f blk N s h1' h2'
  rw [hn] at hp
  refine ⟨_, _, _, hp, rfl, rfl, ?_⟩
  rw [zip_fst_snd]
  simp only [planOf]
  exact planLoop_chain blk.cb blk.ce h2 h4 (blk.re - blk.rb) blk.rb 0
    (by omega) (by simpa [sumLen] using h5)

/-- Witness for the amended C7 at the region `(0, 3, 0, 4)` with `N = 4`:
the planner yields `cbs = [1, 2, 3]`, `rls = [0, 3, 5]`, and the zipped
sequence satisfies the strict-monotonicity-up-to-empty-rows property. -/
theorem dtw_C7_witness :
    (([(1, 0), (2, 3), (3, 5)] : List (Nat × Nat)).Chain'
      (fun x y => x.2 ≤ y.2 ∧ (x.2 = y.2 → 4 - x.1 = 0))) ∧
    ((dtw_distances_prepare dtw_distances_length ⟨0, 3, 0, 4⟩ 4 true true
        ⟨false⟩).map PrepResult.rls = some (some [0, 3, 5])) := by
  constructor
  · obtain ⟨p, CBS, RLS, hp, hc, hr, hch⟩ :=
      dtw_C7_amended dtw_distances_length ⟨0, 3, 0, 4⟩ 4 ⟨false⟩ (by decide)
        (by decide) (by decide) (by decide) (by decide)
    have hpv : p =
        { ret := 0, length := 6, block := ⟨0, 3, 0, 4⟩, cbsCap := 4,
          rlsCap := 4, cbs := some [1, 2, 3], rls := some [0, 3, 5] } :=
      Option.some.inj (hp.symm.trans (by decide))
    subst hpv
    injection hc with hC
    injection hr with hR
    subst hC
    subst hR
    exact hch
  · decide

/-- Claim C9: for identical underlying series data — `ptrs i` pointing at
row `i` of a contiguous matrix with `nb_cols` columns and `lengths i =
nb_cols` for every `i` — and the same region, settings, metric and
allocation outcomes, the ragged single-channel computer
(`dtw_distances_ptrs_parallel`) and the contiguous single-channel computer
(`dtw_distances_matrix_parallel`) produce identical results: the same
returned length, the same block update, and identical output-buffer
writes. -/
theorem dtw_C9 {E V : Type} (d : Metric E V)
    (f : DTWBlock → Nat → Bool → Nat) (matrix : Nat → E)
    (ptrs : Nat → Nat → E) (lengths : Nat → Nat) (N nb_cols : Nat)
    (blk : DTWBlock) (s : DTWSettings) (a1 a2 : Bool)
    (hptrs : ∀ i, ptrs i = fun j => matrix (i * nb_cols + j))
    (hlen : ∀ i, lengths i = nb_cols) :
    dtw_distances_ptrs_parallel d f ptrs N lengths blk s a1 a2
      = dtw_distances_matrix_parallel d f matrix N nb_cols blk s a1 a2 := by
  unfold dtw_distances_ptrs_parallel dtw_distances_matrix_parallel
  congr 1
  funext r c
  rw [hptrs r, hptrs c, hlen r, hlen c]

/-- Witness for C9: a concrete 3-by-2 matrix, its rows exposed through a
pointer array, full region; both computers return the same result. -/
theorem dtw_C9_witness :
    dtw_distances_ptrs_parallel
        (fun a la b lb _ => a 0 * 100 + b 0 + la + lb) dtw_distances_length
        (fun i j => i * 2 + j) 3 (fun _ => 2) ⟨0, 3, 0, 3⟩ ⟨false⟩ true true
      = dtw_distances_matrix_parallel
        (fun a la b lb _ => a 0 * 100 + b 0 + la + lb) dtw_distances_length
        (fun k => k) 3 2 ⟨0, 3, 0, 3⟩ ⟨false⟩ true true :=
  dtw_C9 (fun a la b lb _ => a 0 * 100 + b 0 + la + lb)
    dtw_distances_length (fun k => k) (fun i j => i * 2 + j) (fun _ => 2)
    3 2 ⟨0, 3, 0, 3⟩ ⟨false⟩ true true (fun _ => rfl) (fun _ => rfl)

/-- Claim C10: the preparation step queries the external length
collaborator on the block BEFORE the zero-sentinel defaulting: the result
of `dtw_distances_prepare` depends on the collaborator only through its
value at the raw, un-defaulted block (two collaborators agreeing there are
interchangeable, even if they differ on the defaulted block), while the
block recorded in the result — the one the planning loop and the distance
variants operate on — is the defaulted one, and on success the planner
sequences are computed from the defaulted bounds. -/
theorem dtw_C10 (f g : DTWBlock → Nat → Bool → Nat) (blk : DTWBlock)
    (N : Nat) (a1 a2 : Bool) (s : DTWSettings)
    (h : f blk N s.use_ssize_t = g blk N s.use_ssize_t) :
    (dtw_distances_prepare f blk N a1 a2 s
      = dtw_distances_prepare g blk N a1 a2 s) ∧
    (∀ p, dtw_distances_prepare f blk N a1 a2 s = some p →
      p.block = normBlock blk N ∧
      (p.ret = 0 →
        p.cbs = some ((planOf (normBlock blk N)).map Prod.fst) ∧
        p.rls = some ((planOf (normBlock blk N)).map Prod.snd))) := by
  constructor
  · unfold dtw_distances_prepare
    rw [h]
  · intro p hp
    exact ⟨prepare_block f blk N a1 a2 s p hp,
      prepare_plan f blk N a1 a2 s p hp⟩

/-- Witness for C10: a collaborator that agrees with the spec-modelled
`dtw_distances_length` on the raw sentinel block `(0, 0, 0, 0)` but returns
a junk value everywhere else — in particular on the defaulted block
`(0, 4, 0, 4)` — yields a bit-identical preparation result, showing the
collaborator is consulted before defaulting. -/
theorem dtw_C10_witness :
    dtw_distances_prepare dtw_distances_length ⟨0, 0, 0, 0⟩ 4 true true
        ⟨false⟩
      = dtw_distances_prepare
          (fun b n u => if b = ⟨0, 0, 0, 0⟩ then dtw_distances_length b n u
            else 999) ⟨0, 0, 0, 0⟩ 4 true true ⟨false⟩ :=
  (dtw_C10 dtw_distances_length
    (fun b n u => if b = ⟨0, 0, 0, 0⟩ then dtw_distances_length b n u
      else 999) ⟨0, 0, 0, 0⟩ 4 true true ⟨false⟩ (by decide)).1
